import Mathlib

/-!
Verification development for the offline-sync task manager
(`src/lib/store.ts`, the sync module and the notification module).

Modelling conventions of the shallow embedding:
* ISO-8601 timestamp strings are represented by their epoch-millisecond
  value (an `Int`): the code only ever compares them through
  `new Date(...).getTime()`, which is monotone in the wall-clock value.
* `nanoid()` and `new Date()` are environment inputs, so the generated
  ids and the current time are explicit parameters of each operation.
* Fire-and-forget notification calls do not touch store state; the
  notification scheduler is modelled separately, with the platform
  permission outcome as an explicit boolean input.
* Network outcomes are environment inputs: `probeOk` is the result of
  the reachability probe, `serverOk` the per-request server outcome.
-/

namespace TaskManager

/-- `TaskStatus` from `src/lib/types.ts`. -/
inductive TaskStatus
  | todo
  | in_progress
  | completed
  | cancelled
deriving DecidableEq, Repr

/-- `Attachment` from `src/lib/types.ts`. -/
structure Attachment where
  uri : String
  name : String
  mimeType : String
  size : Option Nat
deriving DecidableEq, Repr

/-- Latitude/longitude pair carried by a task; opaque to the core
(it is never computed with), so an integer carrier suffices. -/
structure Coordinates where
  latitude : Int
  longitude : Int
deriving DecidableEq, Repr

/-- `Task` from `src/lib/types.ts` (the variant used by `store.ts`,
which also carries `coordinates`). `datetime` and `createdAt` are
epoch milliseconds. -/
structure Task where
  id : String
  title : String
  description : Option String
  datetime : Int
  location : String
  coordinates : Option Coordinates
  attachments : Option (List Attachment)
  createdAt : Int
  status : TaskStatus
deriving DecidableEq, Repr

/-- `ActionType` from the types module. -/
inductive ActionType
  | created
  | updated
  | deleted
  | status_changed
deriving DecidableEq, Repr

/-- `ActionLog` from the types module. -/
structure ActionLog where
  id : String
  taskId : String
  taskTitle : String
  actionType : ActionType
  timestamp : Int
  details : Option String
deriving DecidableEq, Repr

/-- `SyncOperationType` from the types module. -/
inductive SyncOpType
  | create
  | update
  | delete
deriving DecidableEq, Repr

/-- `SyncOperation` from the types module: `taskData` is the optional
full task snapshot, `retries` the failed-attempt counter. -/
structure SyncOperation where
  id : String
  type : SyncOpType
  taskId : String
  taskData : Option Task
  timestamp : Int
  retries : Nat
deriving DecidableEq, Repr

/-- `SyncStatus` from the types module. -/
inductive SyncStatus
  | idle
  | syncing
  | success
  | error
deriving DecidableEq, Repr

/-- `SortOrder` from `src/lib/types.ts`. -/
inductive SortOrder
  | dateAdded_desc
  | dateAdded_asc
  | status
deriving DecidableEq, Repr

/-- The persisted store state of `useTaskStore` (`src/lib/store.ts`). -/
structure State where
  tasks : List Task
  actionLogs : List ActionLog
  sortOrder : SortOrder
  pendingSync : List SyncOperation
  syncStatus : SyncStatus
deriving DecidableEq, Repr

/-- The store's initial state (`store.ts`, the literal initial fields). -/
def emptyState : State :=
  { tasks := []
    actionLogs := []
    sortOrder := SortOrder.dateAdded_desc
    pendingSync := []
    syncStatus := SyncStatus.idle }

/-- `Omit<Task, "id" | "createdAt" | "status">`: the caller-supplied
fields of `addTask`. -/
structure TaskInput where
  title : String
  description : Option String
  datetime : Int
  location : String
  coordinates : Option Coordinates
  attachments : Option (List Attachment)
deriving DecidableEq, Repr

/-- `Partial<Task>`: each field is either absent (`none`) or supplies a
value that `Object.assign` writes over the stored task's field. -/
structure TaskUpdates where
  id : Option String := none
  title : Option String := none
  description : Option (Option String) := none
  datetime : Option Int := none
  location : Option String := none
  coordinates : Option (Option Coordinates) := none
  attachments : Option (Option (List Attachment)) := none
  createdAt : Option Int := none
  status : Option TaskStatus := none
deriving DecidableEq, Repr

/-- `Object.assign(task, updates)`: fields present in `updates`
overwrite those of `task`, all the others are kept. -/
def applyUpdates (t : Task) (u : TaskUpdates) : Task :=
  { id := u.id.getD t.id
    title := u.title.getD t.title
    description := u.description.getD t.description
    datetime := u.datetime.getD t.datetime
    location := u.location.getD t.location
    coordinates := u.coordinates.getD t.coordinates
    attachments := u.attachments.getD t.attachments
    createdAt := u.createdAt.getD t.createdAt
    status := u.status.getD t.status }

/-- In-place mutation of the first element satisfying `p` (the element
`Array.prototype.find` returns, mutated through the immer proxy). -/
def updateFirst (p : α → Bool) (f : α → α) : List α → List α
  | [] => []
  | x :: xs => if p x then f x :: xs else x :: updateFirst p f xs

/-- The 500-entry cap applied after every log insertion:
`if (state.actionLogs.length > 500) state.actionLogs = state.actionLogs.slice(0, 500)`. -/
def capLogs (logs : List ActionLog) : List ActionLog :=
  if logs.length > 500 then logs.take 500 else logs

/-- The task literal built inside `addTask`:
`{...data, id: nanoid(), createdAt: now, status: 'todo'}`. -/
def mkNewTask (data : TaskInput) (taskId : String) (now : Int) : Task :=
  { id := taskId
    title := data.title
    description := data.description
    datetime := data.datetime
    location := data.location
    coordinates := data.coordinates
    attachments := data.attachments
    createdAt := now
    status := TaskStatus.todo }

/-- `addTask` (`store.ts` lines 38-71): appends the new task, prepends a
`created` log entry, caps the log, and appends a `create` sync operation
carrying the full new task with `retries = 0`. -/
def addTask (data : TaskInput) (taskId logId opId : String) (now : Int)
    (s : State) : State :=
  let newTask := mkNewTask data taskId now
  { s with
    tasks := s.tasks ++ [newTask]
    actionLogs := capLogs
      ({ id := logId, taskId := newTask.id, taskTitle := newTask.title
         actionType := ActionType.created, timestamp := now, details := none }
        :: s.actionLogs)
    pendingSync := s.pendingSync ++
      [{ id := opId, type := SyncOpType.create, taskId := newTask.id
         taskData := some newTask, timestamp := now, retries := 0 }] }

/-- The field-by-field plain copy built in `updateTask`/`setStatus`
("Create a plain object from the Proxy"). -/
def plainTaskOf (t : Task) : Task :=
  { id := t.id
    title := t.title
    description := t.description
    datetime := t.datetime
    location := t.location
    coordinates := t.coordinates
    attachments := t.attachments
    createdAt := t.createdAt
    status := t.status }

/-- `updateTask` (`store.ts` lines 72-121): no-op when the id is not
found; otherwise `Object.assign`s the updates onto the found task,
prepends an `updated` log entry (title-change detail), caps the log,
re-finds the task by the original id and, when still found, appends an
`update` sync operation carrying the post-merge snapshot. -/
def updateTask (id : String) (u : TaskUpdates) (logId opId : String)
    (now : Int) (s : State) : State :=
  match s.tasks.find? (fun t => t.id == id) with
  | none => s
  | some task =>
      let oldTitle := task.title
      let newTitle := (applyUpdates task u).title
      let tasks1 := updateFirst (fun t => t.id == id)
        (fun t => applyUpdates t u) s.tasks
      let details :=
        if oldTitle ≠ newTitle then
          "Title: \"" ++ oldTitle ++ "\" → \"" ++ newTitle ++ "\""
        else "Task details updated"
      let logs1 := capLogs
        ({ id := logId, taskId := id, taskTitle := newTitle
           actionType := ActionType.updated, timestamp := now
           details := some details } :: s.actionLogs)
      match tasks1.find? (fun t => t.id == id) with
      | some updatedTask =>
          { s with
            tasks := tasks1
            actionLogs := logs1
            pendingSync := s.pendingSync ++
              [{ id := opId, type := SyncOpType.update, taskId := id
                 taskData := some (plainTaskOf updatedTask)
                 timestamp := now, retries := 0 }] }
      | none =>
          { s with tasks := tasks1, actionLogs := logs1 }

/-- `deleteTask` (`store.ts` lines 122-150): no-op when the id is not
found; otherwise prepends a `deleted` log entry with the pre-delete
title, caps the log, filters the task out, and appends a `delete` sync
operation without a task snapshot. -/
def deleteTask (id logId opId : String) (now : Int) (s : State) : State :=
  match s.tasks.find? (fun t => t.id == id) with
  | none => s
  | some task =>
      { s with
        tasks := s.tasks.filter (fun t => !(t.id == id))
        actionLogs := capLogs
          ({ id := logId, taskId := id, taskTitle := task.title
             actionType := ActionType.deleted, timestamp := now
             details := none } :: s.actionLogs)
        pendingSync := s.pendingSync ++
          [{ id := opId, type := SyncOpType.delete, taskId := id
             taskData := none, timestamp := now, retries := 0 }] }

/-- The `statusLabels` record of `setStatus`. -/
def statusLabel : TaskStatus → String
  | TaskStatus.todo => "To Do"
  | TaskStatus.in_progress => "In Progress"
  | TaskStatus.completed => "Completed"
  | TaskStatus.cancelled => "Cancelled"

/-- `setStatus` (`store.ts` lines 151-196): no-op when the id is not
found; otherwise mutates the found task's status, prepends a
`status_changed` log entry with the old→new detail and caps the log.
It enqueues no sync operation. -/
def setStatus (id : String) (status : TaskStatus) (logId : String)
    (now : Int) (s : State) : State :=
  match s.tasks.find? (fun t => t.id == id) with
  | none => s
  | some task =>
      let details := statusLabel task.status ++ " → " ++ statusLabel status
      { s with
        tasks := updateFirst (fun t => t.id == id)
          (fun t => { t with status := status }) s.tasks
        actionLogs := capLogs
          ({ id := logId, taskId := id, taskTitle := task.title
             actionType := ActionType.status_changed, timestamp := now
             details := some details } :: s.actionLogs) }

/-- `setSortOrder` (`store.ts`). -/
def setSortOrder (order : SortOrder) (s : State) : State :=
  { s with sortOrder := order }

/-- `clearActionLogs` (`store.ts`). -/
def clearActionLogs (s : State) : State :=
  { s with actionLogs := [] }

/-- `addSyncOperation` (`store.ts` lines 235-246). -/
def addSyncOperation (type : SyncOpType) (taskId : String)
    (taskData : Option Task) (opId : String) (now : Int) (s : State) : State :=
  { s with pendingSync := s.pendingSync ++
      [{ id := opId, type := type, taskId := taskId, taskData := taskData
         timestamp := now, retries := 0 }] }

/-- `removeSyncOperation` (`store.ts` lines 247-250). -/
def removeSyncOperation (operationId : String) (s : State) : State :=
  { s with pendingSync := s.pendingSync.filter (fun op => !(op.id == operationId)) }

/-! ## Notification scheduler (`scheduleTaskNotification`) -/

/-- `scheduleTaskNotification` from the notification module: returns the
epoch-millisecond firing time of the scheduled reminder, or `none` when
nothing is scheduled. `hasPermission` is the outcome of
`requestNotificationPermissions()`, `now` the current time. The function
returns `none` for completed/cancelled tasks, without permission, and
when the due-time-minus-30-minutes reminder time is not strictly in the
future; otherwise it schedules at `datetime - 30 * 60 * 1000`. -/
def scheduleTaskNotification (hasPermission : Bool) (now : Int)
    (task : Task) : Option Int :=
  if task.status = TaskStatus.completed ∨ task.status = TaskStatus.cancelled then
    none
  else if !hasPermission then
    none
  else
    let notificationTime := task.datetime - 30 * 60 * 1000
    if notificationTime ≤ now then none
    else some notificationTime

/-! ## Sync queue processor (the sync module) -/

/-- `MAX_RETRIES` from the sync module. -/
def MAX_RETRIES : Nat := 3

/-- Whether `executeSyncOperation` succeeds: create/update throw when
`taskData` is missing, otherwise the request outcome `serverOk` decides
(a non-2xx response makes the helper throw). -/
def executeOk (serverOk : SyncOperation → Bool) (op : SyncOperation) : Bool :=
  match op.type with
  | SyncOpType.create => op.taskData.isSome && serverOk op
  | SyncOpType.update => op.taskData.isSome && serverOk op
  | SyncOpType.delete => serverOk op

/-- One callback invocation of `syncPendingOperations`: each constructor
records which of the three callbacks was called and with which
operation id. -/
inductive SyncEvent
  | complete (opId : String)
  | failed (opId : String)
  | retry (opId : String)
deriving DecidableEq, Repr

/-- The sequential `for (const operation of operations)` loop of
`syncPendingOperations`: per operation, success invokes
`onOperationComplete`; failure invokes `onOperationRetry` when
`retries < MAX_RETRIES` and `onOperationFailed` otherwise. -/
def syncLoop (serverOk : SyncOperation → Bool) :
    List SyncOperation → List SyncEvent
  | [] => []
  | op :: rest =>
      (if executeOk serverOk op then SyncEvent.complete op.id
       else if op.retries < MAX_RETRIES then SyncEvent.retry op.id
       else SyncEvent.failed op.id) :: syncLoop serverOk rest

/-- `syncPendingOperations`: probes reachability first and throws
(`none`) when the probe fails, before any operation is attempted;
otherwise runs the sequential loop and returns the callback trace. -/
def syncPendingOperations (probeOk : Bool) (serverOk : SyncOperation → Bool)
    (operations : List SyncOperation) : Option (List SyncEvent) :=
  if probeOk then some (syncLoop serverOk operations) else none

/-- The `onOperationComplete` callback passed by `syncTasks`
(`store.ts` lines 272-276): removes the operation from the queue. -/
def onOperationComplete (operationId : String) (s : State) : State :=
  { s with pendingSync := s.pendingSync.filter (fun op => !(op.id == operationId)) }

/-- The `onOperationFailed` callback passed by `syncTasks`
(`store.ts` lines 278-284): removes the operation from the queue. -/
def onOperationFailed (operationId : String) (s : State) : State :=
  { s with pendingSync := s.pendingSync.filter (fun op => !(op.id == operationId)) }

/-- The `onOperationRetry` callback passed by `syncTasks`
(`store.ts` lines 286-294): increments `retries` of the operation that
stays queued. -/
def onOperationRetry (operationId : String) (s : State) : State :=
  let bump := fun (op : SyncOperation) => { op with retries := op.retries + 1 }
  { s with pendingSync :=
      updateFirst (fun op => op.id == operationId) bump s.pendingSync }

/-- Dispatch of one callback invocation onto the store state. -/
def applyEvent (s : State) : SyncEvent → State
  | SyncEvent.complete opId => onOperationComplete opId s
  | SyncEvent.failed opId => onOperationFailed opId s
  | SyncEvent.retry opId => onOperationRetry opId s

/-- The callbacks run in invocation order against the live state. -/
def applyEvents (events : List SyncEvent) (s : State) : State :=
  events.foldl applyEvent s

/-- `syncTasks` (`store.ts` lines 251-315), together with the callback
trace of the pass: returns unchanged with no callbacks when the queue
is empty or a pass is already running; otherwise snapshots the queue,
sets `syncStatus` to `syncing`, runs `syncPendingOperations`, and ends
in `success`, or in `error` when the probe threw (the 2-second revert
to `idle` is a later timer event, not part of the pass). -/
def syncTasksE (probeOk : Bool) (serverOk : SyncOperation → Bool)
    (s : State) : State × List SyncEvent :=
  if s.pendingSync.isEmpty then (s, [])
  else if s.syncStatus = SyncStatus.syncing then (s, [])
  else
    match syncPendingOperations probeOk serverOk s.pendingSync with
    | some events =>
        ({ applyEvents events { s with syncStatus := SyncStatus.syncing }
            with syncStatus := SyncStatus.success }, events)
    | none => ({ s with syncStatus := SyncStatus.error }, [])

/-- `syncTasks` without the callback trace. -/
def syncTasks (probeOk : Bool) (serverOk : SyncOperation → Bool)
    (s : State) : State :=
  (syncTasksE probeOk serverOk s).1

/-- `n` successive sync passes (successive sync triggers against a
fixed environment), collecting all callback invocations. -/
def syncRun (probeOk : Bool) (serverOk : SyncOperation → Bool) :
    Nat → State → State × List SyncEvent
  | 0, s => (s, [])
  | n + 1, s =>
      let p1 := syncTasksE probeOk serverOk s
      let p2 := syncRun probeOk serverOk n p1.1
      (p2.1, p1.2 ++ p2.2)

/-- Number of `onOperationFailed` (permanent failure) invocations in a
callback trace. -/
def countFailed (events : List SyncEvent) : Nat :=
  (events.filter (fun e => match e with
    | SyncEvent.failed _ => true
    | _ => false)).length

/-- A server whose every request fails (always non-2xx). -/
def failSrv : SyncOperation → Bool := fun _ => false

/-- Store state holding exactly one queued operation and nothing else
(the single-operation sync scenario). -/
def initState (op : SyncOperation) : State :=
  { tasks := []
    actionLogs := []
    sortOrder := SortOrder.dateAdded_desc
    pendingSync := [op]
    syncStatus := SyncStatus.idle }

/-! ## Command traces over the repository -/

/-- One public store call, with the environment-supplied fresh ids and
current time as explicit arguments. -/
inductive Cmd
  | add (data : TaskInput) (taskId logId opId : String) (now : Int)
  | update (id : String) (u : TaskUpdates) (logId opId : String) (now : Int)
  | delete (id logId opId : String) (now : Int)
  | setStatus (id : String) (status : TaskStatus) (logId : String) (now : Int)
  | setSortOrder (order : SortOrder)
  | clearLogs
  | addSyncOp (type : SyncOpType) (taskId : String) (taskData : Option Task)
      (opId : String) (now : Int)
  | removeSyncOp (opId : String)
  | sync (probeOk : Bool) (serverOk : SyncOperation → Bool)

/-- Interpretation of one store call on the state. -/
def exec (c : Cmd) (s : State) : State :=
  match c with
  | Cmd.add data taskId logId opId now => addTask data taskId logId opId now s
  | Cmd.update id u logId opId now => updateTask id u logId opId now s
  | Cmd.delete id logId opId now => deleteTask id logId opId now s
  | Cmd.setStatus id status logId now => setStatus id status logId now s
  | Cmd.setSortOrder order => setSortOrder order s
  | Cmd.clearLogs => clearActionLogs s
  | Cmd.addSyncOp type taskId taskData opId now =>
      addSyncOperation type taskId taskData opId now s
  | Cmd.removeSyncOp opId => removeSyncOperation opId s
  | Cmd.sync probeOk serverOk => syncTasks probeOk serverOk s

/-- Running a sequence of store calls. -/
def run (cmds : List Cmd) (s : State) : State :=
  match cmds with
  | [] => s
  | c :: cs => run cs (exec c s)

/-- Mutation commands of the claim "for all sequences of
`addTask`/`updateTask`/`deleteTask`/`setStatus` calls". -/
def isMut : Cmd → Bool
  | Cmd.add _ _ _ _ _ => true
  | Cmd.update _ _ _ _ _ => true
  | Cmd.delete _ _ _ _ => true
  | Cmd.setStatus _ _ _ _ => true
  | _ => false

/-- Whether a mutation command finds its target task (`addTask`
always does; the other three look the id up). -/
def findsTarget (c : Cmd) (s : State) : Bool :=
  match c with
  | Cmd.add _ _ _ _ _ => true
  | Cmd.update id _ _ _ _ => s.tasks.any (fun t => t.id == id)
  | Cmd.delete id _ _ _ => s.tasks.any (fun t => t.id == id)
  | Cmd.setStatus id _ _ _ => s.tasks.any (fun t => t.id == id)
  | _ => false

/-- Side conditions under which a mutation keeps the id structure
honest: an `add` uses an id not currently stored (`nanoid` freshness),
an `update` payload does not overwrite `id`, and the command is one of
the four task mutations. -/
def okCmd (s : State) : Cmd → Bool
  | Cmd.add _ taskId _ _ _ => !(s.tasks.any (fun t => t.id == taskId))
  | Cmd.update _ u _ _ _ => u.id.isNone
  | Cmd.delete _ _ _ _ => true
  | Cmd.setStatus _ _ _ _ => true
  | _ => false

/-- `okCmd` holding at every step of a trace, against the evolving
state. -/
def okTrace (s : State) : List Cmd → Bool
  | [] => true
  | c :: cs => okCmd s c && okTrace (exec c s) cs

/-- The ids a trace is expected to leave in the collection: an `add`
appends its task id, a `delete` filters its id out, the other
mutations keep the ids unchanged. -/
def liveIds (ids : List String) : List Cmd → List String
  | [] => ids
  | Cmd.add _ taskId _ _ _ :: cs => liveIds (ids ++ [taskId]) cs
  | Cmd.delete id _ _ _ :: cs => liveIds (ids.filter (fun x => !(x == id))) cs
  | _ :: cs => liveIds ids cs

/-! ## Helper lemmas -/

/-- Capping after prepending one entry is exactly keeping the
newest-first prefix of 500 entries. -/
theorem capLogs_eq_take (l : List ActionLog) : capLogs l = l.take 500 := by
  unfold capLogs
  split
  · rfl
  · exact (List.take_of_length_le (by omega)).symm

theorem map_id_updateFirst (p : Task → Bool) (f : Task → Task)
    (hf : ∀ t, (f t).id = t.id) (l : List Task) :
    (updateFirst p f l).map Task.id = l.map Task.id := by
  induction l with
  | nil => rfl
  | cons x xs ih =>
      unfold updateFirst
      split
      · simp [hf]
      · simp [ih]

theorem map_id_filter (l : List Task) (id : String) :
    (l.filter (fun t => !(t.id == id))).map Task.id
      = (l.map Task.id).filter (fun x => !(x == id)) := by
  induction l with
  | nil => rfl
  | cons x xs ih =>
      by_cases h : x.id == id
      · simp [List.filter_cons, h, ih]
      · simp [List.filter_cons, h, ih]

theorem applyEvents_actionLogs (events : List SyncEvent) (s : State) :
    (applyEvents events s).actionLogs = s.actionLogs := by
  induction events generalizing s with
  | nil => rfl
  | cons e rest ih =>
      cases e <;>
        simp [applyEvents, List.foldl_cons, applyEvent, onOperationComplete,
          onOperationFailed, onOperationRetry] <;>
        exact ih _

theorem applyEvents_tasks (events : List SyncEvent) (s : State) :
    (applyEvents events s).tasks = s.tasks := by
  induction events generalizing s with
  | nil => rfl
  | cons e rest ih =>
      cases e <;>
        simp [applyEvents, List.foldl_cons, applyEvent, onOperationComplete,
          onOperationFailed, onOperationRetry] <;>
        exact ih _

theorem syncTasks_actionLogs (probeOk : Bool) (serverOk : SyncOperation → Bool)
    (s : State) : (syncTasks probeOk serverOk s).actionLogs = s.actionLogs := by
  unfold syncTasks syncTasksE
  split
  · rfl
  · split
    · rfl
    · split
      · simp [applyEvents_actionLogs]
      · rfl

theorem syncTasks_tasks (probeOk : Bool) (serverOk : SyncOperation → Bool)
    (s : State) : (syncTasks probeOk serverOk s).tasks = s.tasks := by
  unfold syncTasks syncTasksE
  split
  · rfl
  · split
    · rfl
    · split
      · simp [applyEvents_tasks]
      · rfl

theorem updateTask_map_id (id : String) (u : TaskUpdates) (logId opId : String)
    (now : Int) (s : State) (hu : u.id = none) :
    (updateTask id u logId opId now s).tasks.map Task.id
      = s.tasks.map Task.id := by
  unfold updateTask
  split
  · rfl
  · dsimp only
    split
    · exact map_id_updateFirst _ _ (fun t => by simp [applyUpdates, hu]) _
    · exact map_id_updateFirst _ _ (fun t => by simp [applyUpdates, hu]) _

theorem setStatus_map_id (id : String) (status : TaskStatus) (logId : String)
    (now : Int) (s : State) :
    (setStatus id status logId now s).tasks.map Task.id
      = s.tasks.map Task.id := by
  unfold setStatus
  split
  · rfl
  · dsimp only
    exact map_id_updateFirst (fun t => t.id == id)
      (fun t => { t with status := status }) (fun t => rfl) s.tasks

theorem deleteTask_map_id (id logId opId : String) (now : Int) (s : State) :
    (deleteTask id logId opId now s).tasks.map Task.id
      = (s.tasks.map Task.id).filter (fun x => !(x == id)) := by
  unfold deleteTask
  split
  case h_1 heq =>
    have hall : ∀ x ∈ s.tasks.map Task.id, (!(x == id)) = true := by
      intro x hx
      rcases List.mem_map.mp hx with ⟨t, ht, rfl⟩
      have hne := List.find?_eq_none.mp heq t ht
      cases hbe : (t.id == id)
      · rfl
      · exact absurd hbe hne
    rw [List.filter_eq_self.mpr hall]
  case h_2 t heq =>
    dsimp only
    exact map_id_filter s.tasks id

/-! ## Claims -/

/-- C4: for every input and prior state, `addTask` appends exactly one
task — status `todo`, id the fresh id, `createdAt` the current time,
caller fields merged in — and appends exactly one `create` sync
operation with `retries = 0` whose `taskData` is the full snapshot of
the new task. -/
theorem addTask_appends_and_enqueues_create (data : TaskInput)
    (taskId logId opId : String) (now : Int) (s : State) :
    (addTask data taskId logId opId now s).tasks
        = s.tasks ++ [mkNewTask data taskId now]
    ∧ (addTask data taskId logId opId now s).pendingSync
        = s.pendingSync ++
          [{ id := opId, type := SyncOpType.create, taskId := taskId
             taskData := some (mkNewTask data taskId now), timestamp := now
             retries := 0 }]
    ∧ (mkNewTask data taskId now).status = TaskStatus.todo
    ∧ (mkNewTask data taskId now).id = taskId
    ∧ (mkNewTask data taskId now).createdAt = now
    ∧ (mkNewTask data taskId now).title = data.title
    ∧ (mkNewTask data taskId now).description = data.description
    ∧ (mkNewTask data taskId now).datetime = data.datetime
    ∧ (mkNewTask data taskId now).location = data.location
    ∧ (mkNewTask data taskId now).coordinates = data.coordinates
    ∧ (mkNewTask data taskId now).attachments = data.attachments :=
  ⟨rfl, rfl, rfl, rfl, rfl, rfl, rfl, rfl, rfl, rfl, rfl⟩

/-- C7: for every state and every `(id, newStatus)` pair, `setStatus`
leaves the `pendingSync` queue completely unchanged. -/
theorem setStatus_preserves_pendingSync (id : String) (status : TaskStatus)
    (logId : String) (now : Int) (s : State) :
    (setStatus id status logId now s).pendingSync = s.pendingSync := by
  unfold setStatus
  split <;> rfl

/-- C8: `updateTask`, `deleteTask` and `setStatus` on an id not present
in the task collection are total no-ops: the whole state is returned
exactly unchanged. -/
theorem unknown_id_mutations_noop (s : State) (id : String) (u : TaskUpdates)
    (logId opId : String) (now : Int) (status : TaskStatus)
    (h : ∀ t ∈ s.tasks, t.id ≠ id) :
    updateTask id u logId opId now s = s
    ∧ deleteTask id logId opId now s = s
    ∧ setStatus id status logId now s = s := by
  have hf : s.tasks.find? (fun t => t.id == id) = none := by
    rw [List.find?_eq_none]
    intro t ht
    simp only [beq_iff_eq]
    exact h t ht
  refine ⟨?_, ?_, ?_⟩
  · unfold updateTask
    rw [hf]
  · unfold deleteTask
    rw [hf]
  · unfold setStatus
    rw [hf]

/-- C8 witness: the three mutations at a concrete state that does not
contain the id `"ghost"`. -/
theorem unknown_id_mutations_noop_witness :
    (∀ t ∈ emptyState.tasks, t.id ≠ "ghost")
    ∧ (updateTask "ghost" {} "l" "o" 0 emptyState = emptyState
       ∧ deleteTask "ghost" "l" "o" 0 emptyState = emptyState
       ∧ setStatus "ghost" TaskStatus.completed "l" 0 emptyState = emptyState) :=
  ⟨by intro t ht; simp [emptyState] at ht,
   unknown_id_mutations_noop emptyState "ghost" {} "l" "o" 0 TaskStatus.completed
     (by intro t ht; simp [emptyState] at ht)⟩

/-- An active task due two hours after time `0`, used to exercise the
reminder scheduler when notification permission is denied. -/
def permCexTask : Task :=
  { id := "t1", title := "walk", description := none, datetime := 7200000
    location := "", coordinates := none, attachments := none
    createdAt := 0, status := TaskStatus.todo }

/-- C9 counterexample: `permCexTask` is an active task due in exactly
2 hours, yet when notification permission is denied the scheduler
returns no reminder, contradicting "a task due in 2 hours gets one at
due-time-minus-30-minutes". -/
theorem reminder_permission_denied_cex :
    permCexTask.status = TaskStatus.todo
    ∧ permCexTask.datetime = 0 + 2 * 60 * 60 * 1000
    ∧ scheduleTaskNotification false 0 permCexTask = none
    ∧ scheduleTaskNotification false 0 permCexTask
        ≠ some (permCexTask.datetime - 30 * 60 * 1000) := by
  refine ⟨rfl, rfl, rfl, ?_⟩
  intro h
  simp [scheduleTaskNotification, permCexTask] at h

/-- C9 amended: provided notification permission is granted, the
scheduler is a no-op for completed/cancelled tasks, computes
`reminderTime = datetime - 30 minutes`, schedules exactly at that time
when it is strictly in the future, and otherwise schedules nothing; a
task due in 10 minutes never gets a reminder, a task due in 2 hours
gets one at due-time-minus-30-minutes. -/
theorem scheduleReminder_amended (hasPermission : Bool) (now : Int)
    (task : Task) :
    ((task.status = TaskStatus.completed ∨ task.status = TaskStatus.cancelled) →
        scheduleTaskNotification hasPermission now task = none)
    ∧ (task.datetime - 30 * 60 * 1000 ≤ now →
        scheduleTaskNotification hasPermission now task = none)
    ∧ (hasPermission = true →
        ¬(task.status = TaskStatus.completed ∨ task.status = TaskStatus.cancelled) →
        now < task.datetime - 30 * 60 * 1000 →
        scheduleTaskNotification hasPermission now task
          = some (task.datetime - 30 * 60 * 1000))
    ∧ (task.datetime = now + 10 * 60 * 1000 →
        scheduleTaskNotification hasPermission now task = none)
    ∧ (hasPermission = true →
        ¬(task.status = TaskStatus.completed ∨ task.status = TaskStatus.cancelled) →
        task.datetime = now + 2 * 60 * 60 * 1000 →
        scheduleTaskNotification hasPermission now task
          = some (task.datetime - 30 * 60 * 1000)) := by
  refine ⟨?_, ?_, ?_, ?_, ?_⟩
  · intro h
    simp only [scheduleTaskNotification]
    rw [if_pos h]
  · intro h
    simp only [scheduleTaskNotification]
    split_ifs <;> rfl
  · intro hp hs ht
    simp only [scheduleTaskNotification, hp]
    rw [if_neg hs]
    simp only [Bool.not_true, Bool.false_eq_true, if_false]
    rw [if_neg (by omega)]
  · intro hd
    simp only [scheduleTaskNotification]
    split_ifs with h1 h2 h3
    · rfl
    · rfl
    · rfl
    · exact absurd (by omega) h3
  · intro hp hs hd
    simp only [scheduleTaskNotification, hp]
    rw [if_neg hs]
    simp only [Bool.not_true, Bool.false_eq_true, if_false]
    rw [if_neg (by omega)]

/-- C9 amended witness: the scheduler evaluated on a concrete active
task due two hours after time `0`, with permission granted. -/
theorem scheduleReminder_amended_witness :
    ((true : Bool) = true
     ∧ ¬(permCexTask.status = TaskStatus.completed
          ∨ permCexTask.status = TaskStatus.cancelled)
     ∧ permCexTask.datetime = 0 + 2 * 60 * 60 * 1000)
    ∧ scheduleTaskNotification true 0 permCexTask
        = some (permCexTask.datetime - 30 * 60 * 1000) :=
  ⟨⟨rfl, by simp [permCexTask], rfl⟩,
   (scheduleReminder_amended true 0 permCexTask).2.2.2.2 rfl
     (by simp [permCexTask]) rfl⟩

/-- A stored task with id `"a"`, for the id-overwrite counterexample. -/
def idCexTask : Task :=
  { id := "a", title := "t", description := none, datetime := 0
    location := "", coordinates := none, attachments := none
    createdAt := 0, status := TaskStatus.todo }

/-- A `Partial<Task>` payload that contains an `id` field. -/
def idCexUpdates : TaskUpdates := { id := some "b" }

/-- A state holding exactly the task with id `"a"`. -/
def idCexState : State := { emptyState with tasks := [idCexTask] }

/-- C10 counterexample: `updateTask` with a payload containing
`id: "b"` changes the stored task's id from `"a"` to `"b"`
(`Object.assign` copies every supplied field, `id` included). -/
theorem updateTask_id_overwrite_cex :
    idCexState.tasks.map Task.id = ["a"]
    ∧ (updateTask "a" idCexUpdates "l1" "o1" 0 idCexState).tasks.map Task.id
        = ["b"] :=
  ⟨rfl, rfl⟩

/-- C10 amended: the id of a stored task is unchanged by every
`updateTask` call whose payload does not itself contain an `id` field,
and by every `setStatus` call. -/
theorem task_id_immutable_amended (s : State) (id : String) (u : TaskUpdates)
    (logId opId : String) (now : Int) (status : TaskStatus)
    (hu : u.id = none) :
    (updateTask id u logId opId now s).tasks.map Task.id = s.tasks.map Task.id
    ∧ (setStatus id status logId now s).tasks.map Task.id
        = s.tasks.map Task.id :=
  ⟨updateTask_map_id id u logId opId now s hu,
   setStatus_map_id id status logId now s⟩

/-- C10 amended witness: an id-free payload applied at a concrete
state leaves the stored ids unchanged. -/
theorem task_id_immutable_amended_witness :
    (TaskUpdates.id { title := some "new" } = none)
    ∧ ((updateTask "a" { title := some "new" } "l" "o" 0 idCexState).tasks.map
          Task.id = idCexState.tasks.map Task.id
       ∧ (setStatus "a" TaskStatus.completed "l" 0 idCexState).tasks.map
          Task.id = idCexState.tasks.map Task.id) :=
  ⟨rfl, task_id_immutable_amended idCexState "a" { title := some "new" }
    "l" "o" 0 TaskStatus.completed rfl⟩

/-- C2: when the reachability probe fails on a non-empty queue (and no
pass is already running), the pass aborts before any operation is
attempted: no callback fires, the queue — retries included — is left
exactly as it was, `syncStatus` becomes `error`, and the operation loop
is never entered (`syncPendingOperations` throws). -/
theorem probe_failure_aborts_pass (s : State) (serverOk : SyncOperation → Bool)
    (hne : s.pendingSync ≠ []) (hst : s.syncStatus ≠ SyncStatus.syncing) :
    syncTasksE false serverOk s = ({ s with syncStatus := SyncStatus.error }, [])
    ∧ (syncTasksE false serverOk s).1.pendingSync = s.pendingSync
    ∧ syncPendingOperations false serverOk s.pendingSync = none := by
  have h1 : s.pendingSync.isEmpty = false := by
    cases h : s.pendingSync with
    | nil => exact absurd h hne
    | cons a l => rfl
  have h2 : syncTasksE false serverOk s
      = ({ s with syncStatus := SyncStatus.error }, []) := by
    unfold syncTasksE
    rw [h1]
    simp only [Bool.false_eq_true, if_false]
    rw [if_neg hst]
    rfl
  exact ⟨h2, by rw [h2], rfl⟩

/-- C2 witness: a concrete idle state with one queued operation,
against a failing probe. -/
theorem probe_failure_aborts_pass_witness :
    ((initState { id := "w", type := SyncOpType.delete, taskId := "t"
                  taskData := none, timestamp := 0, retries := 0 }).pendingSync ≠ []
     ∧ (initState { id := "w", type := SyncOpType.delete, taskId := "t"
                    taskData := none, timestamp := 0, retries := 0 }).syncStatus
         ≠ SyncStatus.syncing)
    ∧ syncTasksE false failSrv
        (initState { id := "w", type := SyncOpType.delete, taskId := "t"
                     taskData := none, timestamp := 0, retries := 0 })
        = ({ initState { id := "w", type := SyncOpType.delete, taskId := "t"
                         taskData := none, timestamp := 0, retries := 0 }
              with syncStatus := SyncStatus.error }, []) :=
  ⟨⟨by simp [initState], by simp [initState]⟩,
   (probe_failure_aborts_pass _ failSrv (by simp [initState])
      (by simp [initState])).1⟩

theorem exec_logs_shape (s : State) (c : Cmd) :
    (exec c s).actionLogs = s.actionLogs
    ∨ (exec c s).actionLogs = []
    ∨ ∃ e, (exec c s).actionLogs = (e :: s.actionLogs).take 500 := by
  cases c with
  | add data tid lid oid now =>
      exact Or.inr (Or.inr ⟨_, by simp only [exec, addTask]; rw [capLogs_eq_take]⟩)
  | update id u lid oid now =>
      simp only [exec]
      unfold updateTask
      split
      · exact Or.inl rfl
      · dsimp only
        split
        · exact Or.inr (Or.inr ⟨_, by dsimp only; rw [capLogs_eq_take]⟩)
        · exact Or.inr (Or.inr ⟨_, by dsimp only; rw [capLogs_eq_take]⟩)
  | delete id lid oid now =>
      simp only [exec]
      unfold deleteTask
      split
      · exact Or.inl rfl
      · exact Or.inr (Or.inr ⟨_, by dsimp only; rw [capLogs_eq_take]⟩)
  | setStatus id st lid now =>
      simp only [exec]
      unfold setStatus
      split
      · exact Or.inl rfl
      · exact Or.inr (Or.inr ⟨_, by dsimp only; rw [capLogs_eq_take]⟩)
  | setSortOrder o => exact Or.inl rfl
  | clearLogs => exact Or.inr (Or.inl rfl)
  | addSyncOp t tid td oid now => exact Or.inl rfl
  | removeSyncOp oid => exact Or.inl rfl
  | sync probeOk serverOk => exact Or.inl (syncTasks_actionLogs probeOk serverOk s)

theorem exec_logs_le (s : State) (c : Cmd) (h : s.actionLogs.length ≤ 500) :
    (exec c s).actionLogs.length ≤ 500 := by
  rcases exec_logs_shape s c with h1 | h1 | ⟨e, h1⟩ <;> rw [h1]
  · exact h
  · simp
  · simp only [List.length_take]
    omega

theorem run_logs_le (cmds : List Cmd) (s : State)
    (h : s.actionLogs.length ≤ 500) :
    (run cmds s).actionLogs.length ≤ 500 := by
  induction cmds generalizing s with
  | nil => exact h
  | cons c cs ih => exact ih (exec c s) (exec_logs_le s c h)

/-- C6: the action log never exceeds 500 entries; an operation either
leaves the log unchanged, clears it, or prepends exactly one new entry
and keeps the newest-first 500-entry prefix (evicting the oldest); and
from the initial state every sequence of operations keeps the log at
500 entries or fewer. -/
theorem action_log_cap_500 :
    (∀ (s : State) (c : Cmd), s.actionLogs.length ≤ 500 →
        (exec c s).actionLogs.length ≤ 500
        ∧ ((exec c s).actionLogs = s.actionLogs
           ∨ (exec c s).actionLogs = []
           ∨ ∃ e, (exec c s).actionLogs = (e :: s.actionLogs).take 500))
    ∧ ∀ cmds : List Cmd, (run cmds emptyState).actionLogs.length ≤ 500 :=
  ⟨fun s c h => ⟨exec_logs_le s c h, exec_logs_shape s c⟩,
   fun cmds => run_logs_le cmds emptyState (by simp [emptyState])⟩

/-- A sample `addTask` payload. -/
def sampleInput : TaskInput :=
  { title := "T", description := none, datetime := 0, location := ""
    coordinates := none, attachments := none }

/-- C6 witness: one `addTask` call on the initial state. -/
theorem action_log_cap_500_witness :
    emptyState.actionLogs.length ≤ 500
    ∧ ((exec (Cmd.add sampleInput "a" "l" "o" 0) emptyState).actionLogs.length ≤ 500
       ∧ ((exec (Cmd.add sampleInput "a" "l" "o" 0) emptyState).actionLogs
            = emptyState.actionLogs
          ∨ (exec (Cmd.add sampleInput "a" "l" "o" 0) emptyState).actionLogs = []
          ∨ ∃ e, (exec (Cmd.add sampleInput "a" "l" "o" 0) emptyState).actionLogs
              = (e :: emptyState.actionLogs).take 500)) :=
  ⟨by simp [emptyState],
   action_log_cap_500.1 emptyState (Cmd.add sampleInput "a" "l" "o" 0)
     (by simp [emptyState])⟩

/-- Payload of the first task in the duplicate-id counterexample. -/
def cexInputA : TaskInput :=
  { title := "A", description := none, datetime := 0, location := ""
    coordinates := none, attachments := none }

/-- Payload of the second task in the duplicate-id counterexample. -/
def cexInputB : TaskInput :=
  { title := "B", description := none, datetime := 0, location := ""
    coordinates := none, attachments := none }

/-- C5 counterexample: (a) a `deleteTask` call on an unknown id is a
mutation call that produces zero new action-log entries; (b) after
adding tasks `"a"` and `"b"` and updating `"a"` with a payload whose
`id` field is `"b"`, the collection holds two entries for the
non-deleted id `"b"`. Both refute the claim as stated. -/
theorem mutation_log_uniqueness_cex :
    (run [Cmd.delete "x" "l1" "o1" 0] emptyState).actionLogs = []
    ∧ (run [Cmd.add cexInputA "a" "l1" "o1" 0,
            Cmd.add cexInputB "b" "l2" "o2" 0,
            Cmd.update "a" idCexUpdates "l3" "o3" 0] emptyState).tasks.map Task.id
        = ["b", "b"] :=
  ⟨rfl, rfl⟩

theorem run_tasks_ids (cmds : List Cmd) (s : State)
    (h : okTrace s cmds = true) :
    (run cmds s).tasks.map Task.id = liveIds (s.tasks.map Task.id) cmds
    ∧ ((s.tasks.map Task.id).Nodup → ((run cmds s).tasks.map Task.id).Nodup) := by
  induction cmds generalizing s with
  | nil => exact ⟨rfl, fun hn => hn⟩
  | cons c cs ih =>
      rw [okTrace, Bool.and_eq_true] at h
      obtain ⟨h1, h2⟩ := h
      cases c with
      | add data tid lid oid now =>
          have hfresh : tid ∉ s.tasks.map Task.id := by
            intro hmem
            rcases List.mem_map.mp hmem with ⟨t, ht, hid⟩
            have hany : s.tasks.any (fun t => t.id == tid) = true :=
              List.any_eq_true.mpr ⟨t, ht, by simp [hid]⟩
            rw [okCmd, hany] at h1
            exact absurd h1 (by simp)
          have hexec : (exec (Cmd.add data tid lid oid now) s).tasks.map Task.id
              = s.tasks.map Task.id ++ [tid] := by
            simp [exec, addTask, mkNewTask]
          obtain ⟨ihEq, ihNd⟩ := ih (exec (Cmd.add data tid lid oid now) s) h2
          refine ⟨?_, ?_⟩
          · rw [run, ihEq, hexec, liveIds]
          · intro hnd
            apply ihNd
            rw [hexec]
            simp [List.nodup_append, hnd, hfresh]
      | update id u lid oid now =>
          have hu : u.id = none := Option.isNone_iff_eq_none.mp h1
          have hexec : (exec (Cmd.update id u lid oid now) s).tasks.map Task.id
              = s.tasks.map Task.id :=
            updateTask_map_id id u lid oid now s hu
          obtain ⟨ihEq, ihNd⟩ := ih (exec (Cmd.update id u lid oid now) s) h2
          refine ⟨?_, ?_⟩
          · rw [run, ihEq, hexec]
            exact rfl
          · intro hnd
            apply ihNd
            rw [hexec]
            exact hnd
      | delete id lid oid now =>
          have hexec : (exec (Cmd.delete id lid oid now) s).tasks.map Task.id
              = (s.tasks.map Task.id).filter (fun x => !(x == id)) :=
            deleteTask_map_id id lid oid now s
          obtain ⟨ihEq, ihNd⟩ := ih (exec (Cmd.delete id lid oid now) s) h2
          refine ⟨?_, ?_⟩
          · rw [run, ihEq, hexec, liveIds]
          · intro hnd
            apply ihNd
            rw [hexec]
            exact List.Nodup.filter _ hnd
      | setStatus id st lid now =>
          have hexec : (exec (Cmd.setStatus id st lid now) s).tasks.map Task.id
              = s.tasks.map Task.id :=
            setStatus_map_id id st lid now s
          obtain ⟨ihEq, ihNd⟩ := ih (exec (Cmd.setStatus id st lid now) s) h2
          refine ⟨?_, ?_⟩
          · rw [run, ihEq, hexec]
            exact rfl
          · intro hnd
            apply ihNd
            rw [hexec]
            exact hnd
      | setSortOrder o => exact Bool.noConfusion h1
      | clearLogs => exact Bool.noConfusion h1
      | addSyncOp t tid td oid now => exact Bool.noConfusion h1
      | removeSyncOp oid => exact Bool.noConfusion h1
      | sync p srv => exact Bool.noConfusion h1

theorem mut_found_logs (s : State) (c : Cmd) (hm : isMut c = true)
    (hf : findsTarget c s = true) :
    ∃ e, (exec c s).actionLogs = (e :: s.actionLogs).take 500 := by
  cases c with
  | add data tid lid oid now =>
      exact ⟨_, by simp only [exec, addTask]; rw [capLogs_eq_take]⟩
  | update id u lid oid now =>
      rw [findsTarget] at hf
      have hsome : (s.tasks.find? (fun t => t.id == id)).isSome :=
        List.find?_isSome.mpr (List.any_eq_true.mp hf)
      rcases Option.isSome_iff_exists.mp hsome with ⟨t, hfind⟩
      exact ⟨{ id := lid, taskId := id, taskTitle := (applyUpdates t u).title
               actionType := ActionType.updated, timestamp := now
               details := some (if t.title ≠ (applyUpdates t u).title then
                   "Title: \"" ++ t.title ++ "\" → \"" ++ (applyUpdates t u).title ++ "\""
                 else "Task details updated") }, by
        simp only [exec, updateTask, hfind]
        split <;> rw [capLogs_eq_take]⟩
  | delete id lid oid now =>
      rw [findsTarget] at hf
      have hsome : (s.tasks.find? (fun t => t.id == id)).isSome :=
        List.find?_isSome.mpr (List.any_eq_true.mp hf)
      rcases Option.isSome_iff_exists.mp hsome with ⟨t, hfind⟩
      exact ⟨_, by
        simp only [exec, deleteTask, hfind]
        rw [capLogs_eq_take]⟩
  | setStatus id st lid now =>
      rw [findsTarget] at hf
      have hsome : (s.tasks.find? (fun t => t.id == id)).isSome :=
        List.find?_isSome.mpr (List.any_eq_true.mp hf)
      rcases Option.isSome_iff_exists.mp hsome with ⟨t, hfind⟩
      exact ⟨_, by
        simp only [exec, setStatus, hfind]
        rw [capLogs_eq_take]⟩
  | setSortOrder o => exact Bool.noConfusion hm
  | clearLogs => exact Bool.noConfusion hm
  | addSyncOp t tid td oid now => exact Bool.noConfusion hm
  | removeSyncOp oid => exact Bool.noConfusion hm
  | sync p srv => exact Bool.noConfusion hm

theorem mut_notfound_noop (s : State) (c : Cmd) (hm : isMut c = true)
    (hf : findsTarget c s = false) : exec c s = s := by
  cases c with
  | add data tid lid oid now => exact Bool.noConfusion hf
  | update id u lid oid now =>
      rw [findsTarget] at hf
      have hnone : s.tasks.find? (fun t => t.id == id) = none := by
        rw [List.find?_eq_none]
        intro t ht hbe
        have hany : s.tasks.any (fun t => t.id == id) = true :=
          List.any_eq_true.mpr ⟨t, ht, hbe⟩
        rw [hany] at hf
        exact absurd hf (by simp)
      simp only [exec, updateTask, hnone]
  | delete id lid oid now =>
      rw [findsTarget] at hf
      have hnone : s.tasks.find? (fun t => t.id == id) = none := by
        rw [List.find?_eq_none]
        intro t ht hbe
        have hany : s.tasks.any (fun t => t.id == id) = true :=
          List.any_eq_true.mpr ⟨t, ht, hbe⟩
        rw [hany] at hf
        exact absurd hf (by simp)
      simp only [exec, deleteTask, hnone]
  | setStatus id st lid now =>
      rw [findsTarget] at hf
      have hnone : s.tasks.find? (fun t => t.id == id) = none := by
        rw [List.find?_eq_none]
        intro t ht hbe
        have hany : s.tasks.any (fun t => t.id == id) = true :=
          List.any_eq_true.mpr ⟨t, ht, hbe⟩
        rw [hany] at hf
        exact absurd hf (by simp)
      simp only [exec, setStatus, hnone]
  | setSortOrder o => exact Bool.noConfusion hm
  | clearLogs => exact Bool.noConfusion hm
  | addSyncOp t tid td oid now => exact Bool.noConfusion hm
  | removeSyncOp oid => exact Bool.noConfusion hm
  | sync p srv => exact Bool.noConfusion hm

/-- C5 amended: for every sequence of the four mutations from the empty
state in which each `addTask` uses a fresh id and no `updateTask`
payload contains an `id` field, the task collection holds exactly one
entry per non-deleted id (the id list is duplicate-free and equals the
adds-minus-deletes of the trace); and each mutation call that finds its
target prepends exactly one new action-log entry (modulo the 500-entry
cap), while a mutation on an unknown id changes nothing at all. -/
theorem task_uniqueness_and_log_amended :
    (∀ cmds : List Cmd, okTrace emptyState cmds = true →
        ((run cmds emptyState).tasks.map Task.id).Nodup
        ∧ (run cmds emptyState).tasks.map Task.id = liveIds [] cmds)
    ∧ (∀ (s : State) (c : Cmd), isMut c = true → findsTarget c s = true →
        ∃ e, (exec c s).actionLogs = (e :: s.actionLogs).take 500)
    ∧ (∀ (s : State) (c : Cmd), isMut c = true → findsTarget c s = false →
        exec c s = s) :=
  ⟨fun cmds h =>
    ⟨(run_tasks_ids cmds emptyState h).2 (by simp [emptyState]),
     (run_tasks_ids cmds emptyState h).1⟩,
   mut_found_logs, mut_notfound_noop⟩

/-- C5 amended witness: a one-`addTask` trace with a fresh id, and a
`deleteTask` on an unknown id as the no-op case. -/
theorem task_uniqueness_and_log_amended_witness :
    (okTrace emptyState [Cmd.add cexInputA "a" "l1" "o1" 0] = true
     ∧ ((run [Cmd.add cexInputA "a" "l1" "o1" 0] emptyState).tasks.map
          Task.id).Nodup
     ∧ (run [Cmd.add cexInputA "a" "l1" "o1" 0] emptyState).tasks.map Task.id
         = liveIds [] [Cmd.add cexInputA "a" "l1" "o1" 0])
    ∧ (isMut (Cmd.delete "x" "l" "o" 0) = true
       ∧ findsTarget (Cmd.delete "x" "l" "o" 0) emptyState = false
       ∧ exec (Cmd.delete "x" "l" "o" 0) emptyState = emptyState) :=
  ⟨⟨rfl, (task_uniqueness_and_log_amended.1 [Cmd.add cexInputA "a" "l1" "o1" 0]
      rfl).1,
    (task_uniqueness_and_log_amended.1 [Cmd.add cexInputA "a" "l1" "o1" 0]
      rfl).2⟩,
   ⟨rfl, rfl,
    task_uniqueness_and_log_amended.2.2 emptyState (Cmd.delete "x" "l" "o" 0)
      rfl rfl⟩⟩

theorem syncLoop_length (serverOk : SyncOperation → Bool)
    (ops : List SyncOperation) : (syncLoop serverOk ops).length = ops.length := by
  induction ops with
  | nil => rfl
  | cons op rest ih => simp [syncLoop, ih]

theorem syncLoop_getElem (serverOk : SyncOperation → Bool)
    (ops : List SyncOperation) (i : Nat) (h : i < ops.length) :
    (syncLoop serverOk ops)[i]?
      = some (if executeOk serverOk ops[i] then SyncEvent.complete ops[i].id
          else if ops[i].retries < MAX_RETRIES then SyncEvent.retry ops[i].id
          else SyncEvent.failed ops[i].id) := by
  induction ops generalizing i with
  | nil => simp at h
  | cons op rest ih =>
      cases i with
      | zero => simp [syncLoop]
      | succ j =>
          have hj : j < rest.length := by simpa using h
          simp only [syncLoop, List.getElem?_cons_succ, List.getElem_cons_succ]
          exact ih j hj

/-- C3: when the probe succeeds, the pass replays the operations
strictly sequentially in enqueue order and invokes exactly one callback
per operation — `onOperationComplete` on success,
`onOperationRetry` on failure with `retries < 3`, `onOperationFailed`
on failure with `retries ≥ 3` — continuing past failures, each
operation attempted exactly once within the pass. -/
theorem sync_sequential_single_callback (serverOk : SyncOperation → Bool)
    (ops : List SyncOperation) :
    ∃ events, syncPendingOperations true serverOk ops = some events
      ∧ events.length = ops.length
      ∧ ∀ i (h : i < ops.length),
          events[i]? = some
            (if executeOk serverOk ops[i] then SyncEvent.complete ops[i].id
             else if ops[i].retries < MAX_RETRIES then SyncEvent.retry ops[i].id
             else SyncEvent.failed ops[i].id) :=
  ⟨syncLoop serverOk ops, rfl, syncLoop_length serverOk ops,
   fun i h => syncLoop_getElem serverOk ops i h⟩

/-- A server whose every request succeeds. -/
def okSrv : SyncOperation → Bool := fun _ => true

/-- A sample queued delete operation. -/
def sampleOp : SyncOperation :=
  { id := "op1", type := SyncOpType.delete, taskId := "t1", taskData := none
    timestamp := 0, retries := 0 }

/-- C3 witness: the one-operation pass against an all-success server. -/
theorem sync_sequential_single_callback_witness :
    ∃ events, syncPendingOperations true okSrv [sampleOp] = some events
      ∧ events.length = [sampleOp].length
      ∧ ∀ i (h : i < [sampleOp].length),
          events[i]? = some
            (if executeOk okSrv [sampleOp][i] then SyncEvent.complete [sampleOp][i].id
             else if [sampleOp][i].retries < MAX_RETRIES then
               SyncEvent.retry [sampleOp][i].id
             else SyncEvent.failed [sampleOp][i].id) :=
  sync_sequential_single_callback okSrv [sampleOp]

theorem executeOk_failSrv (op : SyncOperation) : executeOk failSrv op = false := by
  unfold executeOk
  cases h : op.type <;> simp [failSrv]

theorem syncTasksE_retry_step (s : State) (q : SyncOperation)
    (hq : s.pendingSync = [q]) (hs : s.syncStatus ≠ SyncStatus.syncing)
    (hr : q.retries < MAX_RETRIES) :
    syncTasksE true failSrv s
      = ({ s with
            pendingSync := [{ q with retries := q.retries + 1 }]
            syncStatus := SyncStatus.success }, [SyncEvent.retry q.id]) := by
  obtain ⟨tk, al, so, ps, ss⟩ := s
  simp only at hq hs
  subst hq
  simp [syncTasksE, syncPendingOperations, syncLoop, executeOk_failSrv, hr, hs,
    applyEvents, applyEvent, onOperationRetry, updateFirst]

theorem syncTasksE_fail_step (s : State) (q : SyncOperation)
    (hq : s.pendingSync = [q]) (hs : s.syncStatus ≠ SyncStatus.syncing)
    (hr : ¬ q.retries < MAX_RETRIES) :
    syncTasksE true failSrv s
      = ({ s with pendingSync := [], syncStatus := SyncStatus.success },
         [SyncEvent.failed q.id]) := by
  obtain ⟨tk, al, so, ps, ss⟩ := s
  simp only at hq hs
  subst hq
  simp [syncTasksE, syncPendingOperations, syncLoop, executeOk_failSrv, hr, hs,
    applyEvents, applyEvent, onOperationFailed, List.filter]

theorem syncTasksE_emptyq (probeOk : Bool) (serverOk : SyncOperation → Bool)
    (s : State) (h : s.pendingSync = []) :
    syncTasksE probeOk serverOk s = (s, []) := by
  unfold syncTasksE
  rw [h]
  rfl

theorem syncRun_succ (probeOk : Bool) (serverOk : SyncOperation → Bool)
    (n : Nat) (s : State) :
    syncRun probeOk serverOk (n + 1) s
      = ((syncRun probeOk serverOk n (syncTasksE probeOk serverOk s).1).1,
         (syncTasksE probeOk serverOk s).2
           ++ (syncRun probeOk serverOk n (syncTasksE probeOk serverOk s).1).2) :=
  rfl

theorem syncRun_emptyq (probeOk : Bool) (serverOk : SyncOperation → Bool)
    (s : State) (h : s.pendingSync = []) (n : Nat) :
    syncRun probeOk serverOk n s = (s, []) := by
  induction n with
  | zero => rfl
  | succ m ih =>
      rw [syncRun_succ, syncTasksE_emptyq probeOk serverOk s h]
      simp [ih]

theorem syncRun_split (probeOk : Bool) (serverOk : SyncOperation → Bool)
    (m n : Nat) (s : State) :
    syncRun probeOk serverOk (m + n) s
      = ((syncRun probeOk serverOk n (syncRun probeOk serverOk m s).1).1,
         (syncRun probeOk serverOk m s).2
           ++ (syncRun probeOk serverOk n (syncRun probeOk serverOk m s).1).2) := by
  induction m generalizing s with
  | zero =>
      simp only [Nat.zero_add]
      simp [syncRun]
  | succ k ih =>
      have hidx : k + 1 + n = (k + n) + 1 := by omega
      rw [hidx, syncRun_succ, ih, syncRun_succ]
      simp [List.append_assoc]

/-- The queued operation with its retries counter replaced. -/
def bumped (op : SyncOperation) (r : Nat) : SyncOperation :=
  { op with retries := r }

/-- The single-operation scenario state after a retrying pass: the
operation still queued with `retries = r`, the pass ended in success. -/
def midState (op : SyncOperation) (r : Nat) : State :=
  { initState op with
    pendingSync := [bumped op r]
    syncStatus := SyncStatus.success }

/-- The single-operation scenario state after the operation was
permanently dropped. -/
def doneState (op : SyncOperation) : State :=
  { initState op with pendingSync := [], syncStatus := SyncStatus.success }

theorem pass_initial (op : SyncOperation) (h0 : op.retries = 0) :
    syncTasksE true failSrv (initState op)
      = (midState op 1, [SyncEvent.retry op.id]) := by
  have h := syncTasksE_retry_step (initState op) op rfl
    (by simp [initState]) (by show op.retries < 3; omega)
  rw [h]
  simp [midState, bumped, initState, h0]

theorem pass_mid (op : SyncOperation) (r : Nat) (hr : r < 3) :
    syncTasksE true failSrv (midState op r)
      = (midState op (r + 1), [SyncEvent.retry op.id]) := by
  have h := syncTasksE_retry_step (midState op r) (bumped op r) rfl
    (by simp [midState, initState]) (by show r < 3; exact hr)
  rw [h]
  simp [midState, bumped, initState]

theorem pass_last (op : SyncOperation) :
    syncTasksE true failSrv (midState op 3)
      = (doneState op, [SyncEvent.failed op.id]) := by
  have h := syncTasksE_fail_step (midState op 3) (bumped op 3) rfl
    (by simp [midState, initState]) (by show ¬ (3 : Nat) < 3; omega)
  rw [h]
  simp [midState, doneState, bumped, initState]

theorem run_one (op : SyncOperation) (h0 : op.retries = 0) :
    syncRun true failSrv 1 (initState op)
      = (midState op 1, [SyncEvent.retry op.id]) := by
  rw [show (1 : Nat) = 0 + 1 from rfl, syncRun_succ, pass_initial op h0]
  simp [syncRun]

theorem run_two (op : SyncOperation) (h0 : op.retries = 0) :
    syncRun true failSrv 2 (initState op)
      = (midState op 2, [SyncEvent.retry op.id, SyncEvent.retry op.id]) := by
  rw [show (2 : Nat) = 1 + 1 from rfl, syncRun_succ, pass_initial op h0]
  dsimp only
  rw [show (1 : Nat) = 0 + 1 from rfl, syncRun_succ, pass_mid op 1 (by omega)]
  simp [syncRun]

theorem run_three (op : SyncOperation) (h0 : op.retries = 0) :
    syncRun true failSrv 3 (initState op)
      = (midState op 3,
         [SyncEvent.retry op.id, SyncEvent.retry op.id, SyncEvent.retry op.id]) := by
  rw [show (3 : Nat) = 2 + 1 from rfl, syncRun_succ, pass_initial op h0]
  dsimp only
  rw [show (2 : Nat) = 1 + 1 from rfl, syncRun_succ, pass_mid op 1 (by omega)]
  dsimp only
  rw [show (1 : Nat) = 0 + 1 from rfl, syncRun_succ, pass_mid op 2 (by omega)]
  simp [syncRun]

theorem run_four (op : SyncOperation) (h0 : op.retries = 0) :
    syncRun true failSrv 4 (initState op)
      = (doneState op,
         [SyncEvent.retry op.id, SyncEvent.retry op.id, SyncEvent.retry op.id,
          SyncEvent.failed op.id]) := by
  rw [show (4 : Nat) = 3 + 1 from rfl, syncRun_succ, pass_initial op h0]
  dsimp only
  rw [show (3 : Nat) = 2 + 1 from rfl, syncRun_succ, pass_mid op 1 (by omega)]
  dsimp only
  rw [show (2 : Nat) = 1 + 1 from rfl, syncRun_succ, pass_mid op 2 (by omega)]
  dsimp only
  rw [show (1 : Nat) = 0 + 1 from rfl, syncRun_succ, pass_last op]
  simp [syncRun]

/-- C1: with a single freshly-queued operation, a server that always
fails and a succeeding probe on every pass: `retries` never exceeds 3
at any point of the run; the 4th pass removes the operation (after its
4th failed attempt) through the permanent-failure callback; the first
three passes invoke only the retry callback; and across every run of at
least 4 passes the permanent-failure callback is invoked exactly once
(and never before the 4th pass). -/
theorem sync_retry_ceiling_permanent_drop (op : SyncOperation)
    (h0 : op.retries = 0) :
    (∀ k, ∀ q ∈ (syncRun true failSrv k (initState op)).1.pendingSync,
        q.retries ≤ 3)
    ∧ (syncRun true failSrv 4 (initState op)).1.pendingSync = []
    ∧ (syncRun true failSrv 4 (initState op)).2
        = [SyncEvent.retry op.id, SyncEvent.retry op.id, SyncEvent.retry op.id,
           SyncEvent.failed op.id]
    ∧ (∀ n, 4 ≤ n →
        countFailed (syncRun true failSrv n (initState op)).2 = 1)
    ∧ (∀ n, n ≤ 3 →
        countFailed (syncRun true failSrv n (initState op)).2 = 0) := by
  refine ⟨?_, ?_, ?_, ?_, ?_⟩
  · intro k q hq
    rcases Nat.lt_or_ge k 4 with hk | hk
    · interval_cases k
      · rw [show syncRun true failSrv 0 (initState op) = (initState op, [])
            from rfl] at hq
        simp [initState] at hq
        subst hq
        omega
      · rw [run_one op h0] at hq
        simp [midState, bumped, initState] at hq
        subst hq
        simp
      · rw [run_two op h0] at hq
        simp [midState, bumped, initState] at hq
        subst hq
        simp
      · rw [run_three op h0] at hq
        simp [midState, bumped, initState] at hq
        subst hq
        simp
    · obtain ⟨j, rfl⟩ := Nat.exists_eq_add_of_le hk
      rw [syncRun_split true failSrv 4 j (initState op), run_four op h0] at hq
      dsimp only at hq
      rw [syncRun_emptyq true failSrv (doneState op) rfl j] at hq
      simp [doneState, initState] at hq
  · rw [run_four op h0]
    rfl
  · rw [run_four op h0]
  · intro n hn
    obtain ⟨j, rfl⟩ := Nat.exists_eq_add_of_le hn
    rw [syncRun_split true failSrv 4 j (initState op), run_four op h0]
    dsimp only
    rw [syncRun_emptyq true failSrv (doneState op) rfl j]
    simp [countFailed]
  · intro n hn
    interval_cases n
    · rw [show syncRun true failSrv 0 (initState op) = (initState op, [])
          from rfl]
      rfl
    · rw [run_one op h0]
      rfl
    · rw [run_two op h0]
      rfl
    · rw [run_three op h0]
      rfl

/-- C1 witness: the scenario evaluated on a concrete freshly-queued
create operation. -/
theorem sync_retry_ceiling_permanent_drop_witness :
    sampleOp.retries = 0
    ∧ ((∀ k, ∀ q ∈ (syncRun true failSrv k (initState sampleOp)).1.pendingSync,
          q.retries ≤ 3)
       ∧ (syncRun true failSrv 4 (initState sampleOp)).1.pendingSync = []
       ∧ (syncRun true failSrv 4 (initState sampleOp)).2
           = [SyncEvent.retry sampleOp.id, SyncEvent.retry sampleOp.id,
              SyncEvent.retry sampleOp.id, SyncEvent.failed sampleOp.id]
       ∧ (∀ n, 4 ≤ n →
           countFailed (syncRun true failSrv n (initState sampleOp)).2 = 1)
       ∧ (∀ n, n ≤ 3 →
           countFailed (syncRun true failSrv n (initState sampleOp)).2 = 0)) :=
  ⟨rfl, sync_retry_ceiling_permanent_drop sampleOp rfl⟩

end TaskManager
